import Mathlib

/-!
Verification development for the A2A task-execution core of this repository.

The TypeScript sources are shallowly embedded as Lean definitions:

* JSON-serialized columns (the Drizzle backend stores `status`, `parts`,
  `metadata`, `extensions` as text) are modelled by the structured values
  themselves; `JSON.stringify`/`JSON.parse` round-trips are the identity on
  present values, and JavaScript string truthiness (the empty string is
  falsy) is modelled explicitly where the source relies on `||` / `?:`.
* `crypto.randomUUID()` is modelled by a fresh-counter field on the database
  state: each call consumes the counter, so generated ids are fresh.
* Asynchronous methods are modelled as pure state transformers; a method
  that can reject returns `Except`, and callers that observe partial state
  after a throw thread the state explicitly.
-/

namespace A2A

/-- Opaque structured value (a JSON-like scalar) used for `data` parts,
`metadata` records and executor input objects. -/
inductive Val where
  | vstr : String → Val
  | vnat : Nat → Val
deriving DecidableEq, Repr

/-- A structured object: an association list of fields. -/
abbrev Obj := List (String × Val)

/-- Metadata record (`z.record(z.unknown())`). -/
abbrev Meta := List (String × Val)

/-- Payload of a `File`: exactly one of base64 `bytes` or a `uri` in the
parsed representation. -/
inductive FilePayload where
  | bytes : String → FilePayload
  | uri : String → FilePayload
deriving DecidableEq, Repr

/-- Parsed `File` value (`FileSchema` output). -/
structure FileV where
  mimeType : Option String := none
  name : Option String := none
  payload : FilePayload
deriving DecidableEq, Repr

/-- `Part` union from `@a2a-js/sdk` as used by the storage and dispatch
code: tagged by `kind` (`text` / `file` / `data`). -/
inductive Part where
  | text : String → Part
  | file : FileV → Part
  | data : Obj → Part
deriving DecidableEq, Repr

/-- `Message1`: one exchange unit. Optional fields default to absent
(JavaScript `undefined`). -/
structure Message where
  messageId : String
  role : String
  parts : List Part
  contextId : Option String := none
  taskId : Option String := none
  extensions : Option (List String) := none
  metadata : Option Meta := none
deriving DecidableEq, Repr

/-- The nine task states of the A2A specification (`TaskStateSchema`). -/
inductive TaskState where
  | submitted | working | inputRequired | completed
  | canceled | failed | rejected | authRequired | unknown
deriving DecidableEq, Repr

/-- `TaskStatus`: embedded status value held by a task. -/
structure TaskStatus where
  state : TaskState
  message : Option Message := none
  timestamp : Option String := none
deriving DecidableEq, Repr

/-- `Artifact1`: a durable output owned by a task. -/
structure Artifact where
  artifactId : String
  name : Option String := none
  description : Option String := none
  parts : List Part
  extensions : Option (List String) := none
  metadata : Option Meta := none
deriving DecidableEq, Repr

/-- An artifact together with its owning `taskId`
(`Artifact1 & \x7b taskId: string \x7d`). -/
structure TaskArtifact where
  taskId : String
  artifact : Artifact
deriving DecidableEq, Repr

/-- `Task2`: the central work-unit entity (the constant `kind: "task"`
discriminant is omitted). -/
structure Task where
  id : String
  contextId : String
  status : TaskStatus
  artifacts : Option (List Artifact) := none
  history : Option (List Message) := none
  metadata : Option Meta := none
deriving DecidableEq, Repr

/-! ## JavaScript helpers -/

/-- JavaScript truthiness of an optional string: `null`/`undefined` and the
empty string are falsy. -/
def jsTruthyStr : Option String → Bool
  | none => false
  | some s => !(s == "")

/-- `a || b` on optional strings (the empty string is falsy). -/
def jsOrStr (a b : Option String) : Option String :=
  if jsTruthyStr a then a else b

/-- `s || null` on an optional string: coerces the empty string to absent. -/
def jsStrOrNone : Option String → Option String
  | none => none
  | some s => if s == "" then none else some s

/-- JavaScript `Map` modelled as an insertion-ordered association list:
`set` replaces in place when the key exists, otherwise appends. -/
def mapSet {α : Type} (m : List (String × α)) (k : String) (v : α) :
    List (String × α) :=
  match m with
  | [] => [(k, v)]
  | (k', v') :: rest =>
      if k' == k then (k, v) :: rest else (k', v') :: mapSet rest k v

/-- `Map.get`. -/
def mapGet {α : Type} (m : List (String × α)) (k : String) : Option α :=
  (m.find? (fun p => p.1 == k)).map (fun p => p.2)

/-- `Map.delete`: removes the entry, preserving insertion order. -/
def mapDelete {α : Type} (m : List (String × α)) (k : String) :
    List (String × α) :=
  m.filter (fun p => !(p.1 == k))

/-! ## In-memory storage adapter (`MemoryStorageAdapter`) -/

/-- The `MemoryStore`: map of tasks by id, messages by taskId, artifacts by
artifactId. -/
structure MemoryStore where
  tasks : List (String × Task) := []
  messages : List (String × List Message) := []
  artifacts : List (String × TaskArtifact) := []
deriving DecidableEq, Repr

/-- `saveTask`: upsert by `task.id`. -/
def MemoryStore.saveTask (s : MemoryStore) (t : Task) : MemoryStore :=
  { s with tasks := mapSet s.tasks t.id t }

/-- `getTask`: lookup by id (`null` when absent). -/
def MemoryStore.getTask (s : MemoryStore) (taskId : String) : Option Task :=
  mapGet s.tasks taskId

/-- `saveMessage`: appends to the task's message list. -/
def MemoryStore.saveMessage (s : MemoryStore) (taskId : String)
    (m : Message) : MemoryStore :=
  let msgs := (mapGet s.messages taskId).getD []
  { s with messages := mapSet s.messages taskId (msgs ++ [m]) }

/-- `getMessages`: the task's message list (empty when absent). -/
def MemoryStore.getMessages (s : MemoryStore) (taskId : String) :
    List Message :=
  (mapGet s.messages taskId).getD []

/-- `updateTaskStatus`: throws `Task not found` when absent; replaces the
status; when `status.message` is present, pushes it onto `task.history` and
also saves it via `saveMessage`. -/
def MemoryStore.updateTaskStatus (s : MemoryStore) (taskId : String)
    (st : TaskStatus) : Except String MemoryStore :=
  match mapGet s.tasks taskId with
  | none => .error ("Task not found: " ++ taskId)
  | some task =>
      let task' : Task :=
        { task with
          status := st
          history :=
            match st.message with
            | none => task.history
            | some m => some ((task.history.getD []) ++ [m]) }
      let s' := { s with tasks := mapSet s.tasks taskId task' }
      .ok (match st.message with
           | none => s'
           | some m => s'.saveMessage taskId m)

/-- `updateArtifact`: sets the artifacts map entry keyed by `artifactId`,
then, when the owning task is loaded, pushes the artifact (without its
`taskId`) onto the task's `artifacts` array. -/
def MemoryStore.updateArtifact (s : MemoryStore) (a : TaskArtifact) :
    MemoryStore :=
  let s1 := { s with artifacts := mapSet s.artifacts a.artifact.artifactId a }
  match mapGet s1.tasks a.taskId with
  | none => s1
  | some task =>
      let task' : Task :=
        { task with artifacts := some ((task.artifacts.getD []) ++ [a.artifact]) }
      { s1 with tasks := mapSet s1.tasks a.taskId task' }

/-- `getArtifact`: lookup by `artifactId`, stripping the `taskId`. -/
def MemoryStore.getArtifact (s : MemoryStore) (artifactId : String) :
    Option Artifact :=
  (mapGet s.artifacts artifactId).map (fun a => a.artifact)

/-- `getTaskArtifacts`: all artifacts whose `taskId` matches, in map
insertion order. -/
def MemoryStore.getTaskArtifacts (s : MemoryStore) (taskId : String) :
    List Artifact :=
  (s.artifacts.filter (fun p => p.2.taskId == taskId)).map
    (fun p => p.2.artifact)

/-! ## Drizzle storage adapter (`DrizzleStorageAdapter`, sqlite provider)

Rows keep the structured values of their serialized columns. Row primary
keys (`crypto.randomUUID()`) are modelled as naturals drawn from the
database state's fresh counter `nextId`. -/

/-- Row of the `a2a_tasks` table (the constant `kind` column and the
timestamp columns unused by the adapter logic are omitted). -/
structure DbTaskRow where
  id : String
  status : TaskStatus
  statusState : TaskState
  statusMessage : Option Message
  statusReason : Option String := none
  contextId : Option String
  extensions : Option (List String) := none
  metadata : Meta
deriving DecidableEq, Repr

/-- Row of the `a2a_messages` table. `metadata = none` models the empty
string the adapter writes when the message has no metadata. -/
structure DbMessageRow where
  id : Nat
  taskId : String
  messageId : String
  role : String
  parts : List Part
  contextId : Option String
  extensions : Option (List String)
  metadata : Option Meta
  createdAt : Nat
deriving DecidableEq, Repr

/-- Row of the `a2a_artifacts` table. -/
structure DbArtifactRow where
  id : Nat
  taskId : String
  artifactId : String
  name : Option String
  description : Option String
  parts : List Part
  extensions : Option (List String)
  metadata : Option Meta
deriving DecidableEq, Repr

/-- Row of the `a2a_task_messages` join table (primary key
`(taskId, messageId)`, carrying the per-task `sequence`). -/
structure DbTaskMessageRow where
  taskId : String
  messageId : Nat
  sequence : Nat
deriving DecidableEq, Repr

/-- The relational database state; `nextId` models `crypto.randomUUID()`
freshness. -/
structure DrizzleDb where
  tasks : List DbTaskRow := []
  messages : List DbMessageRow := []
  artifacts : List DbArtifactRow := []
  taskMessages : List DbTaskMessageRow := []
  nextId : Nat := 0
deriving DecidableEq, Repr

/-- `taskToDb`: `contextId: task.contextId || null`,
`metadata: JSON.stringify(task.metadata || \x7b\x7d)`. -/
def taskToDb (t : Task) : DbTaskRow :=
  { id := t.id
    status := t.status
    statusState := t.status.state
    statusMessage := t.status.message
    statusReason := none
    contextId := jsStrOrNone (some t.contextId)
    extensions := none
    metadata := t.metadata.getD [] }

/-- `dbToTask`: rebuilds a task from a row; the `timestamp`, `artifacts`
and `history` fields are not stored in the row. -/
def dbToTask (r : DbTaskRow) : Task :=
  { id := r.id
    contextId := r.contextId.getD ""
    status := { state := r.statusState, message := r.statusMessage, timestamp := none }
    artifacts := none
    history := none
    metadata := some r.metadata }

/-- `saveTask`: `insert .. onConflictDoUpdate` with conflict target
`tasks.id`; on conflict every status column, `contextId`, `extensions`
and `metadata` are replaced. -/
def DrizzleDb.saveTask (db : DrizzleDb) (t : Task) : DrizzleDb :=
  let row := taskToDb t
  if (db.tasks.find? (fun r => r.id == row.id)).isSome then
    { db with tasks := db.tasks.map (fun r =>
        if r.id == row.id then
          { r with status := row.status, statusState := row.statusState,
                   statusMessage := row.statusMessage,
                   statusReason := row.statusReason,
                   contextId := row.contextId, extensions := row.extensions,
                   metadata := row.metadata }
        else r) }
  else { db with tasks := db.tasks ++ [row] }

/-- `getTask`: `select .. where id = taskId limit 1`. -/
def DrizzleDb.getTask (db : DrizzleDb) (taskId : String) : Option Task :=
  (db.tasks.find? (fun r => r.id == taskId)).map dbToTask

/-- `updateTaskStatus`: a bare `UPDATE .. WHERE id = taskId` of the status
columns; affects zero rows (and succeeds) when the task does not exist, and
never touches the message tables. -/
def DrizzleDb.updateTaskStatus (db : DrizzleDb) (taskId : String)
    (st : TaskStatus) : DrizzleDb :=
  { db with tasks := db.tasks.map (fun r =>
      if r.id == taskId then
        { r with status := st, statusState := st.state,
                 statusMessage := st.message, statusReason := none }
      else r) }

/-- `messageToDb`: fresh random `id`, `contextId: message.contextId || null`
(empty string coerced to null), `metadata` kept when present and the empty
string otherwise; `createdAt` is the database clock default. -/
def messageRow (rowId : Nat) (taskId : String) (m : Message) (now : Nat) :
    DbMessageRow :=
  { id := rowId
    taskId := taskId
    messageId := m.messageId
    role := m.role
    parts := m.parts
    contextId := jsStrOrNone m.contextId
    extensions := m.extensions
    metadata := m.metadata
    createdAt := now }

/-- `dbToMessage`: `contextId || undefined`, metadata parsed back
(the empty-string column becomes `\x7b\x7d`); the `taskId` is not part of
the rebuilt message. -/
def dbToMessage (r : DbMessageRow) : Message :=
  { messageId := r.messageId
    role := r.role
    parts := r.parts
    contextId := jsStrOrNone r.contextId
    taskId := none
    extensions := r.extensions
    metadata := some (r.metadata.getD []) }

/-- Per-task rows of the join table. -/
def tmsFor (db : DrizzleDb) (t : String) : List DbTaskMessageRow :=
  db.taskMessages.filter (fun tm => tm.taskId == t)

/-- `select max(sequence) .. where taskId = t` followed by `|| 0`. -/
def maxSeqOf (db : DrizzleDb) (t : String) : Nat :=
  ((tmsFor db t).map (fun tm => tm.sequence)).foldl max 0

/-- `saveMessage`: inserts the message row (`onConflictDoUpdate` keyed on
the freshly generated `messages.id`), reads the per-task max sequence, and
inserts the join row with `sequence = max + 1`
(`onConflictDoNothing` on the `(taskId, messageId)` primary key). -/
def DrizzleDb.saveMessage (db : DrizzleDb) (taskId : String) (m : Message)
    (now : Nat) : DrizzleDb :=
  let row := messageRow db.nextId taskId m now
  let msgs :=
    if (db.messages.find? (fun r => r.id == row.id)).isSome then
      db.messages.map (fun r =>
        if r.id == row.id then
          { r with role := row.role, parts := row.parts,
                   contextId := row.contextId, extensions := row.extensions,
                   metadata := row.metadata }
        else r)
    else db.messages ++ [row]
  let nextSequence := maxSeqOf db taskId + 1
  let tms :=
    if (db.taskMessages.find? (fun tm =>
          tm.taskId == taskId && tm.messageId == row.id)).isSome then
      db.taskMessages
    else db.taskMessages ++ [⟨taskId, row.id, nextSequence⟩]
  { db with messages := msgs, taskMessages := tms, nextId := db.nextId + 1 }

/-- `getMessages`: inner join of `messages` and `taskMessages` on the row
id, filtered by `taskId`, ordered by `sequence` ascending. -/
def DrizzleDb.getMessages (db : DrizzleDb) (taskId : String) :
    List Message :=
  (List.insertionSort (fun a b => a.sequence ≤ b.sequence)
      (tmsFor db taskId)).filterMap
    (fun tm => (db.messages.find? (fun r => r.id == tm.messageId)).map dbToMessage)

/-- `artifactToDb`: fresh random `id`; `name`/`description` coerced by
`|| null`. -/
def artifactRow (rowId : Nat) (a : TaskArtifact) : DbArtifactRow :=
  { id := rowId
    taskId := a.taskId
    artifactId := a.artifact.artifactId
    name := jsStrOrNone a.artifact.name
    description := jsStrOrNone a.artifact.description
    parts := a.artifact.parts
    extensions := a.artifact.extensions
    metadata := a.artifact.metadata }

/-- `dbToArtifact`. -/
def dbToArtifact (r : DbArtifactRow) : Artifact :=
  { artifactId := r.artifactId
    name := r.name
    description := r.description
    parts := r.parts
    extensions := r.extensions
    metadata := some (r.metadata.getD []) }

/-- `updateArtifact`: `insert .. onConflictDoUpdate` whose conflict target
is the `artifacts.id` primary key — which is freshly generated on every
call, so the conflict branch never fires and every call appends a row. -/
def DrizzleDb.updateArtifact (db : DrizzleDb) (a : TaskArtifact) :
    DrizzleDb :=
  let row := artifactRow db.nextId a
  let arts :=
    if (db.artifacts.find? (fun r => r.id == row.id)).isSome then
      db.artifacts.map (fun r =>
        if r.id == row.id then
          { r with name := row.name, description := row.description,
                   parts := row.parts, extensions := row.extensions,
                   metadata := row.metadata }
        else r)
    else db.artifacts ++ [row]
  { db with artifacts := arts, nextId := db.nextId + 1 }

/-- `getArtifact`: `select .. where artifactId = .. limit 1` — the first
matching row in table order. -/
def DrizzleDb.getArtifact (db : DrizzleDb) (artifactId : String) :
    Option Artifact :=
  (db.artifacts.find? (fun r => r.artifactId == artifactId)).map dbToArtifact

/-- `getTaskArtifacts`: all artifact rows of the task. -/
def DrizzleDb.getTaskArtifacts (db : DrizzleDb) (taskId : String) :
    List Artifact :=
  (db.artifacts.filter (fun r => r.taskId == taskId)).map dbToArtifact

/-! ## Event channel and executor context (`core.ts`) -/

/-- `A2AEvent`: discriminated union of the two event kinds. -/
inductive A2AEvent where
  | statusUpdate (taskId contextId : String) (status : TaskStatus) (final : Bool)
  | artifactUpdate (taskId contextId : String) (artifact : Artifact)
deriving DecidableEq, Repr

/-- The `taskId` an event is addressed to. -/
def A2AEvent.eventTaskId : A2AEvent → String
  | .statusUpdate t _ _ _ => t
  | .artifactUpdate t _ _ => t

/-- Combined state seen by the executor context: the emitted event log
(the `eventSender`) and the in-memory storage adapter. -/
structure CtxState where
  events : List A2AEvent := []
  store : MemoryStore := {}
deriving DecidableEq, Repr

/-- `updateStatus`: emits a `status-update` event carrying the given
status, then persists `\x7bstate, message, timestamp: now\x7d` via the
storage adapter's `updateTaskStatus` (which throws on a missing task; the
event has already been emitted by then). -/
def ctxUpdateStatus (s : CtxState) (taskId contextId : String)
    (status : TaskStatus) (now : String) : CtxState × Except String Unit :=
  let s1 := { s with events := s.events ++ [A2AEvent.statusUpdate taskId contextId status false] }
  match s1.store.updateTaskStatus taskId
      { state := status.state, message := status.message, timestamp := some now } with
  | .error e => (s1, .error e)
  | .ok store' => ({ s1 with store := store' }, .ok ())

/-- `getTask` of the executor context: throws `Task not found` when the
storage adapter returns null. -/
def ctxGetTask (s : CtxState) (taskId : String) : Except String Task :=
  match s.store.getTask taskId with
  | none => .error ("Task not found: " ++ taskId)
  | some t => .ok t

/-- `updateMessage`: emits a `status-update` with a synthetic `working`
status carrying the message, then saves the message. -/
def ctxUpdateMessage (s : CtxState) (taskId contextId : String)
    (m : Message) (now : String) : CtxState :=
  let s1 := { s with events := s.events ++
      [A2AEvent.statusUpdate taskId contextId
         { state := .working, timestamp := some now, message := some m } false] }
  { s1 with store := s1.store.saveMessage taskId m }

/-- `cancelTask`: emits a `status-update` with state `canceled`, then
persists that status (throwing on a missing task, after the event). -/
def ctxCancelTask (s : CtxState) (taskId contextId : String)
    (message : Option Message) (now : String) :
    CtxState × Except String Unit :=
  let s1 := { s with events := s.events ++
      [A2AEvent.statusUpdate taskId contextId
         { state := .canceled, timestamp := some now, message := message } false] }
  match s1.store.updateTaskStatus taskId
      { state := .canceled, message := message, timestamp := some now } with
  | .error e => (s1, .error e)
  | .ok store' => ({ s1 with store := store' }, .ok ())

/-- `updateArtifact` of the context: emits an `artifact-update` event, then
upserts through the storage adapter. -/
def ctxUpdateArtifact (s : CtxState) (taskId contextId : String)
    (a : Artifact) : CtxState :=
  let s1 := { s with events := s.events ++ [A2AEvent.artifactUpdate taskId contextId a] }
  { s1 with store := s1.store.updateArtifact ⟨taskId, a⟩ }

/-- Executor-context `getTask` over the Drizzle backend. -/
def ctxGetTaskDrizzle (db : DrizzleDb) (taskId : String) :
    Except String Task :=
  match db.getTask taskId with
  | none => .error ("Task not found: " ++ taskId)
  | some t => .ok t

/-- Executor-context `cancelTask` over the Drizzle backend: the adapter's
`updateTaskStatus` cannot reject, so the call always resolves. -/
def ctxCancelTaskDrizzle (db : DrizzleDb) (taskId contextId : String)
    (message : Option Message) (now : String)
    (events : List A2AEvent) :
    (List A2AEvent × DrizzleDb) × Except String Unit :=
  let events' := events ++
      [A2AEvent.statusUpdate taskId contextId
         { state := .canceled, timestamp := some now, message := message } false]
  ((events', db.updateTaskStatus taskId
      { state := .canceled, message := message, timestamp := some now }), .ok ())

/-! ## Executor registry and dispatch (`createA2A.execute`) -/

/-- Registry entry: zod input/output schemas are modelled as decidable
validators (shape checks without transformation), and `executeFn` as a
state transformer over the store that may throw. -/
structure Executor where
  extension : String
  input : Option (Obj → Bool) := none
  output : Option (Val → Bool) := none
  run : Obj → MemoryStore → MemoryStore × Except String Val

/-- The registry: a JavaScript `Map` keyed by `executor.extension`
(`register` is `Map.set`, so the last registration for a URI wins). -/
abbrev Registry := List (String × Executor)

/-- `findExecutor`: scans the extension URIs in list order and returns the
executor of the first URI with a registration. -/
def findExecutor (extensions : List String) (executors : Registry) :
    Option Executor :=
  match extensions with
  | [] => none
  | u :: rest =>
      match mapGet executors u with
      | some e => some e
      | none => findExecutor rest executors

/-- Errors thrown by `execute`. -/
inductive A2AError where
  | noExecutorFound : Option (List String) → A2AError
  | missingIdentifiers : A2AError
  | inputValidationError : A2AError
  | outputValidationError : A2AError
  | executorError : String → A2AError
deriving DecidableEq, Repr

/-- `extractInput`: the first `text` part contributes a `text` field, and
the fields of the first `data` part are spread over it (later keys win). -/
def extractInput (m : Message) : Obj :=
  let textObj : Obj :=
    match m.parts.find? (fun p => match p with | .text _ => true | _ => false) with
    | some (.text s) => [("text", .vstr s)]
    | _ => []
  let dataObj : Obj :=
    match m.parts.find? (fun p => match p with | .data _ => true | _ => false) with
    | some (.data d) => d
    | _ => []
  dataObj.foldl (fun acc kv => mapSet acc kv.1 kv.2) textObj

/-- `ExecuteOptions`: optional taskId/contextId overrides. -/
structure ExecuteOptions where
  taskId : Option String := none
  contextId : Option String := none
deriving DecidableEq, Repr

/-- Steps 3–7 of `execute`, after the executor has been resolved: create
and save the fresh `submitted` task, persist the inbound message, extract
and validate the input, run the executor, validate its output. The store
is returned alongside the result so that state written before a throw
remains observable. -/
def executeCore (ex : Executor) (msg : Message) (options : ExecuteOptions)
    (now : String) (st : MemoryStore) :
    MemoryStore × Except A2AError Val :=
  let tRes := jsOrStr options.taskId msg.taskId
  let cRes := jsOrStr options.contextId msg.contextId
  if jsTruthyStr tRes && jsTruthyStr cRes then
    let taskId := tRes.getD ""
    let contextId := cRes.getD ""
    let task : Task :=
      { id := taskId
        contextId := contextId
        status := { state := .submitted, timestamp := some now, message := some msg }
        metadata := some [] }
    let st1 := st.saveTask task
    let st2 := st1.saveMessage taskId msg
    let input := extractInput msg
    let valid := match ex.input with
      | some check => check input
      | none => true
    if valid then
      match ex.run input st2 with
      | (st3, .error e) => (st3, .error (.executorError e))
      | (st3, .ok out) =>
          match ex.output with
          | some check =>
              if check out then (st3, .ok out)
              else (st3, .error .outputValidationError)
          | none => (st3, .ok out)
    else (st2, .error .inputValidationError)
  else (st, .error .missingIdentifiers)

/-- `execute`: resolve the executor from `message.extensions || []`, then
run the pipeline; throws `No executor found` before any write when no URI
is registered. -/
def execute (executors : Registry) (msg : Message)
    (options : ExecuteOptions) (now : String) (st : MemoryStore) :
    MemoryStore × Except A2AError Val :=
  match findExecutor (msg.extensions.getD []) executors with
  | none => (st, .error (.noExecutorFound msg.extensions))
  | some ex => executeCore ex msg options now st

/-! ## In-process SSE fan-out (`integrations/nextjs/sse.ts`) -/

/-- One `ReadableStreamDefaultController`: the frames enqueued so far (we
record the event values) and whether the controller has been closed.
Enqueueing on a closed controller throws. -/
structure Sink where
  sid : Nat
  buffer : List A2AEvent := []
  closed : Bool := false
deriving DecidableEq, Repr

/-- The module-level `connections` registry: `taskId -> Set of controllers`
(a JavaScript `Set` iterates in insertion order). -/
structure SseState where
  connections : List (String × List Sink) := []
deriving DecidableEq, Repr

/-- The enqueue loop of `sendSSEEvent`: writes the frame to every
controller; a throwing (closed) controller is removed from the set. -/
def deliverTo (sinks : List Sink) (event : A2AEvent) : List Sink :=
  sinks.filterMap (fun sk =>
    if sk.closed then none
    else some { sk with buffer := sk.buffer ++ [event] })

/-- The registry state after the enqueue loop: the surviving controllers
replace the task's set, and an emptied entry is deleted. -/
def afterDelivery (s : SseState) (tid : String) (delivered : List Sink) :
    List (String × List Sink) :=
  let conns1 := mapSet s.connections tid delivered
  if delivered.isEmpty then mapDelete conns1 tid else conns1

/-- The close loop run after an `artifact-update`: `controller.close()` on
every surviving controller. -/
def closeAll (sinks : List Sink) : List Sink :=
  sinks.map (fun sk => { sk with closed := true })

/-- `sendSSEEvent`: looks up the task's controllers (returning early when
there are none), enqueues the encoded frame on each — a throwing (closed)
controller is removed — cleans up an emptied entry, and, when the event is
an `artifact-update`, closes every remaining controller for the task and
deletes the registry entry. Returns the new registry together with the
final states of the task's controllers. -/
def sendSSEEvent (event : A2AEvent) (s : SseState) :
    SseState × List Sink :=
  let tid := event.eventTaskId
  match mapGet s.connections tid with
  | none => (s, [])
  | some sinks =>
      if sinks.isEmpty then (s, [])
      else
        let delivered := deliverTo sinks event
        let conns2 := afterDelivery s tid delivered
        match event with
        | .artifactUpdate _ _ _ =>
            (⟨mapDelete conns2 tid⟩, closeAll delivered)
        | _ => (⟨conns2⟩, delivered)

/-- The heartbeat message the SSE handler persists on subscription. -/
def sseHeartbeat (heartbeatMsgId : String) : Message :=
  { messageId := heartbeatMsgId
    role := "agent"
    parts := [.text "SSE connection established"]
    metadata := some [] }

/-- The `start` callback of `createSSEHandler`'s stream: registers the new
controller for the task, then fires `updateStatus` with a synthetic
`working` status carrying an `SSE connection established` agent message
(the returned `Except` is the fate of that un-awaited promise). The
`contextId` query parameter falls back to a fresh UUID, and
`heartbeatMsgId` / `handlerNow` / `coreNow` stand for the two
`crypto.randomUUID()` / `new Date()` calls involved. -/
def sseSubscribe (taskId : String) (contextIdParam : Option String)
    (freshContextId : String) (sk : Sink) (heartbeatMsgId : String)
    (handlerNow coreNow : String) (s : SseState) (ctx : CtxState) :
    SseState × CtxState × Except String Unit :=
  let contextId :=
    if jsTruthyStr contextIdParam then contextIdParam.getD ""
    else freshContextId
  let conns := mapSet s.connections taskId
      ((mapGet s.connections taskId).getD [] ++ [sk])
  let (ctx', r) := ctxUpdateStatus ctx taskId contextId
      { state := .working, timestamp := some handlerNow,
        message := some (sseHeartbeat heartbeatMsgId) }
      coreNow
  (⟨conns⟩, ctx', r)

/-! ## Zod `File` schema (`schemas/parts.ts`) -/

/-- A candidate value submitted to `FileSchema`: each of the four known
fields is either absent or carries some structured value (zod objects are
non-strict, so unrecognized keys are stripped rather than rejected and
need not be modelled). -/
structure FileInput where
  mimeType : Option Val := none
  name : Option Val := none
  bytes : Option Val := none
  uri : Option Val := none
deriving DecidableEq, Repr

/-- An optional string field check (`z.string().optional()`): absent is
fine, a present value must be a string. -/
def isOptStr : Option Val → Bool
  | none => true
  | some (.vstr _) => true
  | some _ => false

/-- The string carried by an optional field, when any. -/
def asStr : Option Val → Option String
  | some (.vstr s) => some s
  | _ => none

/-- `FileSchema.parse`: `z.union` tries the `bytes` variant first, then the
`uri` variant; each variant is a non-strict object, so a field belonging
only to the other variant is stripped, not rejected. The `uri` variant's
`.url()` refinement is taken as the parameter `isUrl`: the theorems below
hold for every such predicate, so nothing proved depends on its exact
extension. -/
def fileParse (isUrl : String → Bool) (v : FileInput) : Option FileV :=
  if isOptStr v.mimeType && isOptStr v.name then
    match v.bytes with
    | some (.vstr b) =>
        some { mimeType := asStr v.mimeType, name := asStr v.name,
               payload := .bytes b }
    | _ =>
        match v.uri with
        | some (.vstr u) =>
            if isUrl u then
              some { mimeType := asStr v.mimeType, name := asStr v.name,
                     payload := .uri u }
            else none
        | _ => none
  else none

/-! ## Shared lemmas about the map and list primitives -/

theorem mapGet_mapSet_self {α : Type} (m : List (String × α)) (k : String)
    (v : α) : mapGet (mapSet m k v) k = some v := by
  induction m with
  | nil => simp [mapSet, mapGet]
  | cons p rest ih =>
      obtain ⟨k', v'⟩ := p
      by_cases h : k' = k
      · subst h; simp [mapSet, mapGet]
      · have hb : (k' == k) = false := beq_eq_false_iff_ne.mpr h
        simpa [mapSet, mapGet, hb, List.find?] using ih

theorem mapGet_mapSet_ne {α : Type} (m : List (String × α)) (k k' : String)
    (v : α) (h : k ≠ k') : mapGet (mapSet m k v) k' = mapGet m k' := by
  have hb' : (k == k') = false := beq_eq_false_iff_ne.mpr h
  induction m with
  | nil => simp [mapSet, mapGet, List.find?, hb']
  | cons p rest ih =>
      obtain ⟨ka, va⟩ := p
      by_cases hk : ka = k
      · subst hk
        simp [mapSet, mapGet, List.find?, hb']
      · have hb : (ka == k) = false := beq_eq_false_iff_ne.mpr hk
        by_cases hk' : ka = k'
        · subst hk'
          simp [mapSet, mapGet, List.find?, hb]
        · have hb2 : (ka == k') = false := beq_eq_false_iff_ne.mpr hk'
          simpa [mapSet, mapGet, List.find?, hb, hb2] using ih

theorem mapGet_mapDelete_self {α : Type} (m : List (String × α))
    (k : String) : mapGet (mapDelete m k) k = none := by
  induction m with
  | nil => simp [mapDelete, mapGet]
  | cons p rest ih =>
      obtain ⟨ka, va⟩ := p
      by_cases hk : ka = k
      · subst hk; simpa [mapDelete, mapGet] using ih
      · have hb : (ka == k) = false := beq_eq_false_iff_ne.mpr hk
        simpa [mapDelete, mapGet, List.find?, hb] using ih

theorem getMessages_saveMessage_self (s : MemoryStore) (tid : String)
    (m : Message) :
    (s.saveMessage tid m).getMessages tid = s.getMessages tid ++ [m] := by
  simp [MemoryStore.saveMessage, MemoryStore.getMessages, mapGet_mapSet_self]

theorem getMessages_saveMessage_ne (s : MemoryStore) (tid tid' : String)
    (m : Message) (h : tid ≠ tid') :
    (s.saveMessage tid m).getMessages tid' = s.getMessages tid' := by
  simp [MemoryStore.saveMessage, MemoryStore.getMessages,
    mapGet_mapSet_ne _ _ _ _ h]

theorem foldl_max_init_le (l : List Nat) (a : Nat) : a ≤ l.foldl max a := by
  induction l generalizing a with
  | nil => simp
  | cons y ys ih => exact le_trans (le_max_left a y) (ih (max a y))

theorem le_foldl_max (l : List Nat) (a x : Nat) (hx : x ∈ l) :
    x ≤ l.foldl max a := by
  induction l generalizing a with
  | nil => cases hx
  | cons y ys ih =>
      cases hx with
      | head => exact le_trans (le_max_right a x) (foldl_max_init_le ys (max a x))
      | tail _ h => exact ih (max a y) h

theorem filterMap_if_closed (l : List Sink) (f : Sink → Sink) :
    l.filterMap (fun sk => if sk.closed then none else some (f sk))
      = (l.filter (fun sk => !sk.closed)).map f := by
  induction l with
  | nil => rfl
  | cons sk rest ih =>
      by_cases h : sk.closed
      · simp [h, ih]
      · simp [h, ih]

theorem filterMap_lookup_append (msgs : List DbMessageRow)
    (row : DbMessageRow) (tms : List DbTaskMessageRow)
    (h : ∀ tm ∈ tms, (msgs.find? (fun r => r.id == tm.messageId)).isSome) :
    tms.filterMap (fun tm =>
        ((msgs ++ [row]).find? (fun r => r.id == tm.messageId)).map dbToMessage)
      = tms.filterMap (fun tm =>
        (msgs.find? (fun r => r.id == tm.messageId)).map dbToMessage) := by
  induction tms with
  | nil => rfl
  | cons tm rest ih =>
      have hh := h tm (List.mem_cons_self _ _)
      obtain ⟨r0, hr0⟩ := Option.isSome_iff_exists.mp hh
      have : (msgs ++ [row]).find? (fun r => r.id == tm.messageId) = some r0 := by
        rw [List.find?_append, hr0]; rfl
      simp only [List.filterMap_cons, this, hr0]
      rw [ih (fun x hx => h x (List.mem_cons_of_mem _ hx))]

theorem saveMessage_messages_append (db : DrizzleDb) (t : String)
    (m : Message) (now : Nat)
    (hwf : ∀ r ∈ db.messages, r.id < db.nextId) :
    (db.saveMessage t m now).messages
      = db.messages ++ [messageRow db.nextId t m now] := by
  have hfr : (db.messages.find?
      (fun r => r.id == (messageRow db.nextId t m now).id)) = none := by
    apply List.find?_eq_none.mpr
    intro r hr
    simpa [messageRow] using Nat.ne_of_lt (hwf r hr)
  simp only [DrizzleDb.saveMessage]
  rw [hfr]
  simp [messageRow]

theorem saveMessage_taskMessages_append (db : DrizzleDb) (t : String)
    (m : Message) (now : Nat)
    (hwf : ∀ tm ∈ db.taskMessages, tm.messageId < db.nextId) :
    (db.saveMessage t m now).taskMessages
      = db.taskMessages ++ [⟨t, db.nextId, maxSeqOf db t + 1⟩] := by
  have hfr : (db.taskMessages.find? (fun tm =>
      tm.taskId == t && tm.messageId == (messageRow db.nextId t m now).id)) = none := by
    apply List.find?_eq_none.mpr
    intro tm htm
    simp [messageRow, Nat.ne_of_lt (hwf tm htm)]
  simp only [DrizzleDb.saveMessage]
  rw [hfr]
  simp [messageRow]

theorem saveMessage_nextId (db : DrizzleDb) (t : String) (m : Message)
    (now : Nat) : (db.saveMessage t m now).nextId = db.nextId + 1 := rfl

/-! ## Claim C9 — `File` schema and "exactly one of bytes / uri" -/

/-- Claim C9, counterexample: a value carrying BOTH `bytes` and `uri` is
accepted by `FileSchema` — the union's first, non-strict branch matches
and strips `uri`, whatever zod's `.url()` refinement holds of the `uri`
string (both constant predicates shown) — contradicting the claim that a
value with both fields is rejected. -/
theorem fileSchema_accepts_bytes_and_uri :
    fileParse (fun _ => true)
      { bytes := some (.vstr "QUJD"),
        uri := some (.vstr "http://example.com") } ≠ none ∧
    fileParse (fun _ => false)
      { bytes := some (.vstr "QUJD"),
        uri := some (.vstr "http://example.com") } ≠ none := by
  exact ⟨by decide, by decide⟩

/-- Claim C9 (amended): `FileSchema` does not enforce "exactly one of
`bytes` or `uri`" on the "both" side: for every `.url()` refinement, a
value carrying BOTH a string `bytes` field and a `uri` field (with
well-typed optional `mimeType`/`name`) is accepted — parsed as the `bytes`
variant with `uri` stripped — while a value with NEITHER field is
rejected, as originally claimed. -/
theorem fileSchema_bytes_wins_amended (isUrl : String → Bool)
    (v w : FileInput) (b : String) (u : Val)
    (hb : v.bytes = some (.vstr b)) (hu : v.uri = some u)
    (hmt : isOptStr v.mimeType = true) (hn : isOptStr v.name = true)
    (hwb : w.bytes = none) (hwu : w.uri = none) :
    fileParse isUrl v
      = some { mimeType := asStr v.mimeType, name := asStr v.name,
               payload := .bytes b } ∧
    fileParse isUrl w = none := by
  constructor
  · simp [fileParse, hb, hmt, hn]
  · unfold fileParse
    by_cases h : (isOptStr w.mimeType && isOptStr w.name) = true
    · simp [h, hwb, hwu]
    · simp [h]

/-- Claim C9 amended, witness. -/
theorem fileSchema_bytes_wins_amended_witness :
    fileParse (fun s => s == "http://example.com")
      { bytes := some (.vstr "QUJD"), uri := some (.vstr "u"),
        mimeType := some (.vstr "text/plain") }
      = some { mimeType := some "text/plain", name := none,
               payload := .bytes "QUJD" } ∧
    fileParse (fun s => s == "http://example.com")
      { name := some (.vstr "f") } = none :=
  fileSchema_bytes_wins_amended (fun s => s == "http://example.com")
    { bytes := some (.vstr "QUJD"), uri := some (.vstr "u"),
      mimeType := some (.vstr "text/plain") }
    { name := some (.vstr "f") } "QUJD" (.vstr "u")
    rfl rfl (by decide) (by decide) rfl rfl

/-! ## Claim C1 — artifact upsert by `artifactId` -/

/-- Drizzle database after two `updateArtifact` calls with the same
`artifactId` `a1` (parts `x=1` then `x=2`) for task `t1`. -/
def drizzleTwoUpserts : DrizzleDb :=
  DrizzleDb.updateArtifact
    (DrizzleDb.updateArtifact {}
      ⟨"t1", { artifactId := "a1", parts := [.data [("x", .vnat 1)]],
               metadata := some [] }⟩)
    ⟨"t1", { artifactId := "a1", parts := [.data [("x", .vnat 2)]],
             metadata := some [] }⟩

/-- Memory store (with task `t1` saved) after the same two
`updateArtifact` calls. -/
def memoryTwoUpserts : MemoryStore :=
  MemoryStore.updateArtifact
    (MemoryStore.updateArtifact
      (MemoryStore.saveTask {}
        { id := "t1", contextId := "c1",
          status := { state := .submitted }, metadata := some [] })
      ⟨"t1", { artifactId := "a1", parts := [.data [("x", .vnat 1)]],
               metadata := some [] }⟩)
    ⟨"t1", { artifactId := "a1", parts := [.data [("x", .vnat 2)]],
             metadata := some [] }⟩

/-- Claim C1, evaluation at the failing input: after two `updateArtifact`
calls with the same `artifactId`, the Drizzle backend holds TWO artifact
rows for `a1` (its `onConflictDoUpdate` targets the freshly generated
random `id` primary key, so the upsert branch is dead code) and
`getArtifact` returns the FIRST call's parts; the in-memory backend's
artifact map does upsert, but the owning task's `artifacts` array has
accumulated two entries. The claim's "exactly one stored artifact with the
second call's parts in both backends" fails. -/
theorem artifact_upsert_failing_input :
    (drizzleTwoUpserts.artifacts.filter
        (fun r => r.artifactId == "a1")).length = 2 ∧
    drizzleTwoUpserts.getArtifact "a1"
      = some { artifactId := "a1", parts := [.data [("x", .vnat 1)]],
               metadata := some [] } ∧
    memoryTwoUpserts.getArtifact "a1"
      = some { artifactId := "a1", parts := [.data [("x", .vnat 2)]],
               metadata := some [] } ∧
    ((memoryTwoUpserts.getTask "t1").map
        (fun t => (t.artifacts.getD []).length)) = some 2 := by
  refine ⟨by decide, by decide, by decide, by decide⟩

/-! ## Claim C3 — operations against a missing task -/

/-- Claim C3, counterexample: against an empty Drizzle database (no stored
task `t1`), `updateTaskStatus` succeeds silently — it is a bare `UPDATE`
affecting zero rows, leaving the database unchanged — and the executor
context's `cancelTask` therefore also resolves successfully, contradicting
the claim that both backends fail with a Task-not-found condition. -/
theorem drizzle_missing_task_silent_success :
    DrizzleDb.updateTaskStatus {} "t1" { state := .canceled } = ({} : DrizzleDb) ∧
    (ctxCancelTaskDrizzle {} "t1" "c1" none "now" []).2 = .ok () := by
  exact ⟨by decide, rfl⟩

/-- Claim C3 (amended): against a missing `taskId`, the in-memory backend
fails all three operations (`updateTaskStatus`, context `getTask`,
`cancelTask`) with a Task-not-found error, and the context `getTask` fails
over the Drizzle backend too; but the Drizzle `updateTaskStatus` (and hence
`cancelTask`) succeeds silently, updating zero rows — neither backend ever
creates a row for the missing task. -/
theorem missing_task_errors_amended (st : MemoryStore) (db : DrizzleDb)
    (tid cid now : String) (status : TaskStatus) (msg : Option Message)
    (ctx : CtxState) (evs : List A2AEvent)
    (hmem : st.getTask tid = none) (hdrz : db.getTask tid = none)
    (hctx : ctx.store.getTask tid = none) :
    st.updateTaskStatus tid status = .error ("Task not found: " ++ tid) ∧
    ctxGetTask ctx tid = .error ("Task not found: " ++ tid) ∧
    (ctxCancelTask ctx tid cid msg now).2 = .error ("Task not found: " ++ tid) ∧
    ctxGetTaskDrizzle db tid = .error ("Task not found: " ++ tid) ∧
    db.updateTaskStatus tid status = db ∧
    (ctxCancelTaskDrizzle db tid cid msg now evs).2 = .ok () := by
  have hmem' : mapGet st.tasks tid = none := hmem
  have hctx' : mapGet ctx.store.tasks tid = none := hctx
  have hfind : db.tasks.find? (fun r => r.id == tid) = none := by
    have h0 := hdrz
    simp only [DrizzleDb.getTask, Option.map_eq_none'] at h0
    exact h0
  have hrow : ∀ r ∈ db.tasks, (r.id == tid) = false := by
    intro r hr
    have h1 := List.find?_eq_none.mp hfind r hr
    simpa using h1
  refine ⟨?_, ?_, ?_, ?_, ?_, rfl⟩
  · simp [MemoryStore.updateTaskStatus, hmem']
  · simp [ctxGetTask, hctx]
  · simp [ctxCancelTask, MemoryStore.updateTaskStatus, hctx']
  · simp [ctxGetTaskDrizzle, hdrz]
  · have hpt : ∀ r ∈ db.tasks,
        (if r.id == tid then
          ({ r with status := status, statusState := status.state,
                    statusMessage := status.message,
                    statusReason := none } : DbTaskRow)
         else r) = id r := by
      intro r hr
      rw [hrow r hr]
      simp
    have hmap := (List.map_congr_left hpt).trans (List.map_id db.tasks)
    unfold DrizzleDb.updateTaskStatus
    rw [hmap]

/-- Claim C3 amended, witness. -/
theorem missing_task_errors_amended_witness :
    MemoryStore.updateTaskStatus {} "t9" { state := .working }
        = .error "Task not found: t9" ∧
    ctxGetTask {} "t9" = .error "Task not found: t9" ∧
    (ctxCancelTask {} "t9" "c" none "now").2 = .error "Task not found: t9" ∧
    ctxGetTaskDrizzle {} "t9" = .error "Task not found: t9" ∧
    DrizzleDb.updateTaskStatus {} "t9" { state := .working } = ({} : DrizzleDb) ∧
    (ctxCancelTaskDrizzle {} "t9" "c" none "now" []).2 = .ok () :=
  missing_task_errors_amended {} {} "t9" "c" "now" { state := .working }
    none {} [] (by decide) (by decide) (by decide)

/-! ## Claim C4 — `updateTaskStatus` with a status message -/

/-- Claim C4, counterexample: in the Drizzle backend, `updateTaskStatus`
on an existing task with `status.message` present replaces the status
columns but appends NOTHING to the task's message history — `getMessages`
stays empty and no join-table row is created — contradicting the claim
that both backends append `status.message` to the history. -/
theorem drizzle_update_status_no_history :
    (DrizzleDb.updateTaskStatus
      (DrizzleDb.saveTask {}
        { id := "t1", contextId := "c1",
          status := { state := .submitted }, metadata := some [] })
      "t1"
      { state := .working,
        message := some { messageId := "m1", role := "agent",
                          parts := [.text "hi"], metadata := some [] } }).getMessages "t1"
      = [] ∧
    (DrizzleDb.updateTaskStatus
      (DrizzleDb.saveTask {}
        { id := "t1", contextId := "c1",
          status := { state := .submitted }, metadata := some [] })
      "t1"
      { state := .working,
        message := some { messageId := "m1", role := "agent",
                          parts := [.text "hi"], metadata := some [] } }).taskMessages
      = [] ∧
    ((DrizzleDb.updateTaskStatus
      (DrizzleDb.saveTask {}
        { id := "t1", contextId := "c1",
          status := { state := .submitted }, metadata := some [] })
      "t1"
      { state := .working,
        message := some { messageId := "m1", role := "agent",
                          parts := [.text "hi"], metadata := some [] } }).getTask "t1").map
        (fun t => t.status.state) = some .working := by
  refine ⟨by decide, by decide, by decide⟩

/-- Claim C4 (amended): on an existing task, the in-memory
`updateTaskStatus` replaces the status and appends `status.message` both
to the task's `history` field and to the message store; the Drizzle
`updateTaskStatus` replaces only the task row's status columns and leaves
the message tables untouched (the history append happens in the in-memory
backend only). -/
theorem update_status_appends_history_amended (st : MemoryStore)
    (tid : String) (task : Task) (status : TaskStatus) (m : Message)
    (db : DrizzleDb)
    (htask : mapGet st.tasks tid = some task)
    (hm : status.message = some m) :
    (∃ st', st.updateTaskStatus tid status = .ok st' ∧
       st'.getTask tid = some { task with
           status := status,
           history := some (task.history.getD [] ++ [m]) } ∧
       st'.getMessages tid = st.getMessages tid ++ [m]) ∧
    (db.updateTaskStatus tid status).messages = db.messages ∧
    (db.updateTaskStatus tid status).taskMessages = db.taskMessages ∧
    ∀ t', (db.updateTaskStatus tid status).getMessages t' = db.getMessages t' := by
  refine ⟨?_, rfl, rfl, fun t' => rfl⟩
  unfold MemoryStore.updateTaskStatus
  rw [htask, hm]
  refine ⟨_, rfl, ?_, ?_⟩
  · show mapGet (MemoryStore.saveMessage _ tid m).tasks tid = _
    unfold MemoryStore.saveMessage
    show mapGet (mapSet st.tasks tid _) tid = _
    rw [mapGet_mapSet_self]
  · rw [getMessages_saveMessage_self]
    show (MemoryStore.getMessages { st with tasks := _ } tid) ++ [m] = _
    rfl

/-- Claim C4 amended, witness. -/
theorem update_status_appends_history_amended_witness :
    (∃ st', MemoryStore.updateTaskStatus
        (MemoryStore.saveTask {}
          { id := "t1", contextId := "c1",
            status := { state := .submitted }, metadata := some [] })
        "t1"
        { state := .working,
          message := some { messageId := "m1", role := "agent",
                            parts := [.text "hi"], metadata := some [] } }
        = .ok st' ∧
      st'.getTask "t1" = some
        { id := "t1", contextId := "c1",
          status := { state := .working,
                      message := some { messageId := "m1", role := "agent",
                                        parts := [.text "hi"],
                                        metadata := some [] } },
          history := some [{ messageId := "m1", role := "agent",
                             parts := [.text "hi"], metadata := some [] }],
          metadata := some [] } ∧
      st'.getMessages "t1" =
        (MemoryStore.saveTask {}
          { id := "t1", contextId := "c1",
            status := { state := .submitted },
            metadata := some [] }).getMessages "t1"
          ++ [{ messageId := "m1", role := "agent",
                parts := [.text "hi"], metadata := some [] }]) ∧
    (DrizzleDb.updateTaskStatus {} "t1"
        { state := .working,
          message := some { messageId := "m1", role := "agent",
                            parts := [.text "hi"], metadata := some [] } }).messages
      = ({} : DrizzleDb).messages ∧
    (DrizzleDb.updateTaskStatus {} "t1"
        { state := .working,
          message := some { messageId := "m1", role := "agent",
                            parts := [.text "hi"], metadata := some [] } }).taskMessages
      = ({} : DrizzleDb).taskMessages ∧
    ∀ t', (DrizzleDb.updateTaskStatus {} "t1"
        { state := .working,
          message := some { messageId := "m1", role := "agent",
                            parts := [.text "hi"], metadata := some [] } }).getMessages t'
      = ({} : DrizzleDb).getMessages t' :=
  update_status_appends_history_amended
    (MemoryStore.saveTask {}
      { id := "t1", contextId := "c1",
        status := { state := .submitted }, metadata := some [] })
    "t1"
    { id := "t1", contextId := "c1",
      status := { state := .submitted }, metadata := some [] }
    { state := .working,
      message := some { messageId := "m1", role := "agent",
                        parts := [.text "hi"], metadata := some [] } }
    { messageId := "m1", role := "agent",
      parts := [.text "hi"], metadata := some [] }
    ({} : DrizzleDb) (by decide) rfl

/-! ## Claim C6 — `saveMessage` with a repeated `messageId` -/

/-- Claim C6, counterexample: saving two messages with the same
`messageId` leaves TWO entries in the task's stored sequence in both
backends — the in-memory adapter plain-pushes, and the Drizzle insert's
`onConflictDoUpdate` targets the freshly random `messages.id` primary key,
never the `messageId` — contradicting the claimed upsert. -/
theorem duplicate_message_id_counterexample :
    ((MemoryStore.saveMessage
        (MemoryStore.saveMessage {} "t1"
          { messageId := "m1", role := "user", parts := [.text "a"],
            metadata := some [] })
        "t1"
        { messageId := "m1", role := "user", parts := [.text "b"],
          metadata := some [] }).getMessages "t1").map
      (fun m => m.messageId) = ["m1", "m1"] ∧
    ((DrizzleDb.saveMessage
        (DrizzleDb.saveMessage {} "t1"
          { messageId := "m1", role := "user", parts := [.text "a"],
            metadata := some [] } 0)
        "t1"
        { messageId := "m1", role := "user", parts := [.text "b"],
          metadata := some [] } 0).messages.filter
      (fun r => r.messageId == "m1")).length = 2 := by
  refine ⟨by decide, by decide⟩

/-- Claim C6 (amended): resending a message with the same `messageId` does
not upsert in either backend: the in-memory store appends a second entry
(the stored sequence ends with the first call's message then the second
call's), and the Drizzle backend appends a second message row under a
fresh primary key. -/
theorem duplicate_message_id_amended (st : MemoryStore) (tid : String)
    (m1 m2 : Message) (db : DrizzleDb) (n1 n2 : Nat)
    (hid : m1.messageId = m2.messageId)
    (hwf : ∀ r ∈ db.messages, r.id < db.nextId) :
    ((st.saveMessage tid m1).saveMessage tid m2).getMessages tid
      = st.getMessages tid ++ [m1, m2] ∧
    ((db.saveMessage tid m1 n1).saveMessage tid m2 n2).messages
      = db.messages ++ [messageRow db.nextId tid m1 n1,
                        messageRow (db.nextId + 1) tid m2 n2] := by
  constructor
  · rw [getMessages_saveMessage_self, getMessages_saveMessage_self,
      List.append_assoc]
    rfl
  · have hwf1 : ∀ r ∈ (db.saveMessage tid m1 n1).messages,
        r.id < (db.saveMessage tid m1 n1).nextId := by
      rw [saveMessage_messages_append db tid m1 n1 hwf, saveMessage_nextId]
      intro r hr
      rcases List.mem_append.mp hr with h | h
      · exact Nat.lt_succ_of_lt (hwf r h)
      · simp at h
        subst h
        simp [messageRow]
    rw [saveMessage_messages_append _ tid m2 n2 hwf1,
      saveMessage_messages_append db tid m1 n1 hwf, saveMessage_nextId,
      List.append_assoc]
    rfl

/-- Claim C6 amended, witness. -/
theorem duplicate_message_id_amended_witness :
    ((MemoryStore.saveMessage
        (MemoryStore.saveMessage {} "t1"
          { messageId := "m1", role := "user", parts := [.text "a"],
            metadata := some [] })
        "t1"
        { messageId := "m1", role := "user", parts := [.text "b"],
          metadata := some [] }).getMessages "t1")
      = ({} : MemoryStore).getMessages "t1"
          ++ [{ messageId := "m1", role := "user", parts := [.text "a"],
                metadata := some [] },
              { messageId := "m1", role := "user", parts := [.text "b"],
                metadata := some [] }] ∧
    ((DrizzleDb.saveMessage
        (DrizzleDb.saveMessage {} "t1"
          { messageId := "m1", role := "user", parts := [.text "a"],
            metadata := some [] } 7)
        "t1"
        { messageId := "m1", role := "user", parts := [.text "b"],
          metadata := some [] } 9).messages)
      = ({} : DrizzleDb).messages
          ++ [messageRow 0 "t1"
                { messageId := "m1", role := "user", parts := [.text "a"],
                  metadata := some [] } 7,
              messageRow 1 "t1"
                { messageId := "m1", role := "user", parts := [.text "b"],
                  metadata := some [] } 9] :=
  duplicate_message_id_amended {} "t1"
    { messageId := "m1", role := "user", parts := [.text "a"],
      metadata := some [] }
    { messageId := "m1", role := "user", parts := [.text "b"],
      metadata := some [] }
    {} 7 9 rfl (by decide)

/-! ## Claim C2 — input-validation failure and task state -/

/-- Executor used in the C2 counterexample: declares an input schema
requiring a field `x`. -/
def c2executor : Executor :=
  { extension := "urn:test:v"
    input := some (fun o => (mapGet o "x").isSome)
    run := fun _ st => (st, .ok (.vnat 0)) }

/-- Message used in the C2 counterexample: its extracted input is
`\x7btext: "hi"\x7d`, which fails the declared schema. -/
def c2message : Message :=
  { messageId := "mm", role := "user", parts := [.text "hi"],
    extensions := some ["urn:test:v"], metadata := some [] }

/-- Claim C2, counterexample: a message whose extracted input fails the
executor's input schema makes `execute` throw a validation error, but by
then the task row HAS been created and the inbound message HAS been
appended to the task's history — `saveTask` and `saveMessage` run before
`extractInput`/`schema.parse` — so the failed call does mutate task
state, contradicting the claim. -/
theorem validation_failure_still_writes :
    (execute [("urn:test:v", c2executor)] c2message
        { taskId := some "t1", contextId := some "c1" } "now" {}).2
      = .error .inputValidationError ∧
    ((execute [("urn:test:v", c2executor)] c2message
        { taskId := some "t1", contextId := some "c1" } "now" {}).1.getTask
        "t1").isSome = true ∧
    (execute [("urn:test:v", c2executor)] c2message
        { taskId := some "t1", contextId := some "c1" } "now" {}).1.getMessages
        "t1" = [c2message] := by
  refine ⟨rfl, by decide, by decide⟩

/-- Claim C2 (amended): when the extracted input fails the resolved
executor's declared input schema, `execute` fails with the validation
error and the executor is never invoked — but the resulting store is
exactly the one produced by first upserting the fresh `submitted` task row
and appending the inbound message to the task's history: those two writes
are not rolled back. -/
theorem validation_failure_amended (regs : Registry) (msg : Message)
    (opts : ExecuteOptions) (now : String) (st : MemoryStore)
    (ex : Executor) (check : Obj → Bool)
    (hfind : findExecutor (msg.extensions.getD []) regs = some ex)
    (hschema : ex.input = some check)
    (hfail : check (extractInput msg) = false)
    (htid : jsTruthyStr (jsOrStr opts.taskId msg.taskId) = true)
    (hcid : jsTruthyStr (jsOrStr opts.contextId msg.contextId) = true) :
    execute regs msg opts now st =
      ((st.saveTask
          { id := (jsOrStr opts.taskId msg.taskId).getD ""
            contextId := (jsOrStr opts.contextId msg.contextId).getD ""
            status := { state := .submitted, timestamp := some now,
                        message := some msg }
            metadata := some [] }).saveMessage
         ((jsOrStr opts.taskId msg.taskId).getD "") msg,
       .error .inputValidationError) := by
  have h1 : execute regs msg opts now st = executeCore ex msg opts now st := by
    unfold execute
    rw [hfind]
  rw [h1]
  simp only [executeCore, htid, hcid, Bool.and_self, if_true, hschema,
    hfail, Bool.false_eq_true, if_false]

/-- Claim C2 amended, witness. -/
theorem validation_failure_amended_witness :
    execute [("urn:test:v", c2executor)] c2message
        { taskId := some "t1", contextId := some "c1" } "now" {} =
      ((MemoryStore.saveTask {}
          { id := "t1"
            contextId := "c1"
            status := { state := .submitted, timestamp := some "now",
                        message := some c2message }
            metadata := some [] }).saveMessage "t1" c2message,
       .error .inputValidationError) :=
  validation_failure_amended [("urn:test:v", c2executor)] c2message
    { taskId := some "t1", contextId := some "c1" } "now" {}
    c2executor (fun o => (mapGet o "x").isSome)
    rfl rfl (by decide) (by decide) (by decide)

/-! ## Claim C8 — executor resolution order -/

theorem findExecutor_none (regs : Registry) (l : List String)
    (h : ∀ v ∈ l, mapGet regs v = none) : findExecutor l regs = none := by
  induction l with
  | nil => rfl
  | cons v rest ih =>
      unfold findExecutor
      rw [h v (List.mem_cons_self _ _)]
      exact ih (fun w hw => h w (List.mem_cons_of_mem _ hw))

theorem findExecutor_first (regs : Registry) (pre post : List String)
    (u : String) (e : Executor)
    (hpre : ∀ v ∈ pre, mapGet regs v = none)
    (hu : mapGet regs u = some e) :
    findExecutor (pre ++ u :: post) regs = some e := by
  induction pre with
  | nil =>
      simp only [List.nil_append]
      unfold findExecutor
      rw [hu]
  | cons v rest ih =>
      show findExecutor (v :: (rest ++ u :: post)) regs = some e
      unfold findExecutor
      rw [hpre v (List.mem_cons_self _ _)]
      exact ih (fun w hw => hpre w (List.mem_cons_of_mem _ hw))

/-- Claim C8: `execute` scans `message.extensions` in list order — the
first URI with a registered executor wins, so a URI earlier in the
message's list beats a later one — dispatching the whole pipeline to that
executor; when no URI is registered (or the list is absent, giving `[]`),
it fails with the no-executor-found error before any write. -/
theorem dispatch_first_extension_wins (regs : Registry)
    (pre post : List String) (u : String) (e : Executor)
    (msg msgN : Message) (opts : ExecuteOptions) (now : String)
    (st : MemoryStore)
    (hpre : ∀ v ∈ pre, mapGet regs v = none)
    (hu : mapGet regs u = some e)
    (hmsg : msg.extensions = some (pre ++ u :: post))
    (hnone : ∀ v ∈ msgN.extensions.getD [], mapGet regs v = none) :
    findExecutor (pre ++ u :: post) regs = some e ∧
    execute regs msg opts now st = executeCore e msg opts now st ∧
    execute regs msgN opts now st
      = (st, .error (.noExecutorFound msgN.extensions)) := by
  have hfirst := findExecutor_first regs pre post u e hpre hu
  refine ⟨hfirst, ?_, ?_⟩
  · unfold execute
    rw [hmsg]
    simp only [Option.getD_some]
    rw [hfirst]
  · unfold execute
    rw [findExecutor_none regs _ hnone]

/-- Claim C8, witness: with executors registered for `urn:a` and `urn:b`
and a message listing `[urn:b, urn:a]`, dispatch goes to the `urn:b`
executor; a message listing only an unregistered URI fails with
no-executor-found. -/
theorem dispatch_first_extension_wins_witness :
    findExecutor (["x"] ++ "urn:b" :: ["urn:a"])
        [("urn:a", { extension := "urn:a",
                     run := fun _ st => (st, .ok (.vnat 1)) }),
         ("urn:b", { extension := "urn:b",
                     run := fun _ st => (st, .ok (.vnat 2)) })]
      = some { extension := "urn:b",
               run := fun _ st => (st, .ok (.vnat 2)) } ∧
    execute
        [("urn:a", { extension := "urn:a",
                     run := fun _ st => (st, .ok (.vnat 1)) }),
         ("urn:b", { extension := "urn:b",
                     run := fun _ st => (st, .ok (.vnat 2)) })]
        { messageId := "m", role := "user", parts := [],
          extensions := some (["x"] ++ "urn:b" :: ["urn:a"]),
          metadata := some [] }
        {} "now" {}
      = executeCore
          { extension := "urn:b", run := fun _ st => (st, .ok (.vnat 2)) }
          { messageId := "m", role := "user", parts := [],
            extensions := some (["x"] ++ "urn:b" :: ["urn:a"]),
            metadata := some [] }
          {} "now" {} ∧
    execute
        [("urn:a", { extension := "urn:a",
                     run := fun _ st => (st, .ok (.vnat 1)) }),
         ("urn:b", { extension := "urn:b",
                     run := fun _ st => (st, .ok (.vnat 2)) })]
        { messageId := "m2", role := "user", parts := [],
          extensions := some ["urn:z"], metadata := some [] }
        {} "now" {}
      = ({}, .error (.noExecutorFound (some ["urn:z"]))) :=
  dispatch_first_extension_wins
    [("urn:a", { extension := "urn:a",
                 run := fun _ st => (st, .ok (.vnat 1)) }),
     ("urn:b", { extension := "urn:b",
                 run := fun _ st => (st, .ok (.vnat 2)) })]
    ["x"] ["urn:a"] "urn:b"
    { extension := "urn:b", run := fun _ st => (st, .ok (.vnat 2)) }
    { messageId := "m", role := "user", parts := [],
      extensions := some (["x"] ++ "urn:b" :: ["urn:a"]),
      metadata := some [] }
    { messageId := "m2", role := "user", parts := [],
      extensions := some ["urn:z"], metadata := some [] }
    {} "now" {}
    (by intro v hv; simp at hv; subst hv; rfl)
    rfl rfl
    (by intro v hv; simp at hv; subst hv; rfl)

/-! ## Claim C5 — event forwarding until client disconnect -/

/-- Claim C5, counterexample: with one open observer of task `t1`, an
`artifact-update` event is forwarded but the server then CLOSES the
observer's connection and drops the registry entry, so a subsequent
`status-update` for `t1` is delivered to nobody — contradicting the claim
that events are forwarded until the client disconnects and that the server
never closes the connection on its own initiative. -/
theorem artifact_update_closes_stream :
    (sendSSEEvent (.artifactUpdate "t1" "c1"
        { artifactId := "a1", parts := [], metadata := some [] })
        ⟨[("t1", [{ sid := 0 }])]⟩).2
      = [{ sid := 0,
           buffer := [.artifactUpdate "t1" "c1"
             { artifactId := "a1", parts := [], metadata := some [] }],
           closed := true }] ∧
    mapGet (sendSSEEvent (.artifactUpdate "t1" "c1"
        { artifactId := "a1", parts := [], metadata := some [] })
        ⟨[("t1", [{ sid := 0 }])]⟩).1.connections "t1" = none ∧
    (sendSSEEvent (.statusUpdate "t1" "c1" { state := .completed } false)
        (sendSSEEvent (.artifactUpdate "t1" "c1"
          { artifactId := "a1", parts := [], metadata := some [] })
          ⟨[("t1", [{ sid := 0 }])]⟩).1).2 = [] := by
  refine ⟨by decide, by decide, by decide⟩

/-- Claim C5 (amended): a `status-update` event is forwarded to every open
sink of its task and closes nothing (the survivors stay registered when any
remain); an `artifact-update` event is forwarded to every open sink, but
the server then closes all of them and removes the task's registry entry,
so every later event for that task is delivered to no sink and leaves the
registry unchanged. Events are thus forwarded until the client disconnects
OR an artifact-update arrives. -/
theorem sendSSEEvent_no_connections (ev : A2AEvent) (st : SseState)
    (h : mapGet st.connections ev.eventTaskId = none) :
    sendSSEEvent ev st = (st, []) := by
  simp only [sendSSEEvent]
  rw [h]

theorem sse_forwarding_amended (s : SseState) (tid cid : String)
    (status : TaskStatus) (fin : Bool) (art : Artifact)
    (sinks : List Sink) (ev' : A2AEvent)
    (hconn : mapGet s.connections tid = some sinks) (hne : sinks ≠ [])
    (hev' : ev'.eventTaskId = tid) :
    (sendSSEEvent (.statusUpdate tid cid status fin) s).2
      = deliverTo sinks (.statusUpdate tid cid status fin) ∧
    deliverTo sinks (.statusUpdate tid cid status fin)
      = (sinks.filter (fun sk => !sk.closed)).map
          (fun sk => { sk with
            buffer := sk.buffer
              ++ [A2AEvent.statusUpdate tid cid status fin] }) ∧
    (∀ sk ∈ (sendSSEEvent (.statusUpdate tid cid status fin) s).2,
        sk.closed = false) ∧
    (deliverTo sinks (.statusUpdate tid cid status fin) ≠ [] →
      mapGet (sendSSEEvent (.statusUpdate tid cid status fin) s).1.connections
          tid
        = some (deliverTo sinks (.statusUpdate tid cid status fin))) ∧
    (sendSSEEvent (.artifactUpdate tid cid art) s).2
      = closeAll (deliverTo sinks (.artifactUpdate tid cid art)) ∧
    (∀ sk ∈ (sendSSEEvent (.artifactUpdate tid cid art) s).2,
        sk.closed = true) ∧
    mapGet (sendSSEEvent (.artifactUpdate tid cid art) s).1.connections tid
      = none ∧
    sendSSEEvent ev' (sendSSEEvent (.artifactUpdate tid cid art) s).1
      = ((sendSSEEvent (.artifactUpdate tid cid art) s).1, []) := by
  have hne' : sinks.isEmpty = false := by
    cases sinks with
    | nil => exact absurd rfl hne
    | cons a l => rfl
  have hsu : sendSSEEvent (.statusUpdate tid cid status fin) s
      = (⟨afterDelivery s tid
            (deliverTo sinks (.statusUpdate tid cid status fin))⟩,
         deliverTo sinks (.statusUpdate tid cid status fin)) := by
    unfold sendSSEEvent
    simp only [A2AEvent.eventTaskId]
    rw [hconn]
    simp only [hne', Bool.false_eq_true, if_false]
  have hau : sendSSEEvent (.artifactUpdate tid cid art) s
      = (⟨mapDelete (afterDelivery s tid
              (deliverTo sinks (.artifactUpdate tid cid art))) tid⟩,
         closeAll (deliverTo sinks (.artifactUpdate tid cid art))) := by
    unfold sendSSEEvent
    simp only [A2AEvent.eventTaskId]
    rw [hconn]
    simp only [hne', Bool.false_eq_true, if_false]
  refine ⟨?_, ?_, ?_, ?_, ?_, ?_, ?_, ?_⟩
  · rw [hsu]
  · exact filterMap_if_closed sinks _
  · rw [hsu]
    intro sk hsk
    unfold deliverTo at hsk
    rw [filterMap_if_closed] at hsk
    obtain ⟨sk0, hmem, hsk0⟩ := List.mem_map.mp hsk
    have hopen := List.of_mem_filter hmem
    rw [← hsk0]
    simpa using hopen
  · intro hfne
    rw [hsu]
    have hde : ((deliverTo sinks
        (A2AEvent.statusUpdate tid cid status fin)).isEmpty) = false := by
      cases hd : deliverTo sinks (A2AEvent.statusUpdate tid cid status fin) with
      | nil => exact absurd hd hfne
      | cons a l => rfl
    show mapGet (afterDelivery s tid _) tid = _
    unfold afterDelivery
    rw [hde]
    simp only [Bool.false_eq_true, if_false]
    exact mapGet_mapSet_self _ _ _
  · rw [hau]
  · rw [hau]
    intro sk hsk
    obtain ⟨sk0, _, hsk0⟩ := List.mem_map.mp hsk
    rw [← hsk0]
  · rw [hau]
    exact mapGet_mapDelete_self _ _
  · apply sendSSEEvent_no_connections
    rw [hev', hau]
    exact mapGet_mapDelete_self _ _

/-- Claim C5 amended, witness. -/
theorem sse_forwarding_amended_witness :
    (sendSSEEvent (.statusUpdate "t1" "c1" { state := .working } false)
        ⟨[("t1", [{ sid := 0 }])]⟩).2
      = deliverTo [{ sid := 0 }]
          (.statusUpdate "t1" "c1" { state := .working } false) ∧
    deliverTo [{ sid := 0 }] (.statusUpdate "t1" "c1" { state := .working } false)
      = ([{ sid := 0 }].filter (fun sk : Sink => !sk.closed)).map
          (fun sk => { sk with
            buffer := sk.buffer
              ++ [A2AEvent.statusUpdate "t1" "c1" { state := .working } false] }) ∧
    (∀ sk ∈ (sendSSEEvent (.statusUpdate "t1" "c1" { state := .working } false)
        ⟨[("t1", [{ sid := 0 }])]⟩).2, sk.closed = false) ∧
    (deliverTo [{ sid := 0 }]
        (.statusUpdate "t1" "c1" { state := .working } false) ≠ [] →
      mapGet (sendSSEEvent (.statusUpdate "t1" "c1" { state := .working } false)
          ⟨[("t1", [{ sid := 0 }])]⟩).1.connections "t1"
        = some (deliverTo [{ sid := 0 }]
            (.statusUpdate "t1" "c1" { state := .working } false))) ∧
    (sendSSEEvent (.artifactUpdate "t1" "c1"
        { artifactId := "a1", parts := [], metadata := some [] })
        ⟨[("t1", [{ sid := 0 }])]⟩).2
      = closeAll (deliverTo [{ sid := 0 }]
          (.artifactUpdate "t1" "c1"
            { artifactId := "a1", parts := [], metadata := some [] })) ∧
    (∀ sk ∈ (sendSSEEvent (.artifactUpdate "t1" "c1"
        { artifactId := "a1", parts := [], metadata := some [] })
        ⟨[("t1", [{ sid := 0 }])]⟩).2, sk.closed = true) ∧
    mapGet (sendSSEEvent (.artifactUpdate "t1" "c1"
        { artifactId := "a1", parts := [], metadata := some [] })
        ⟨[("t1", [{ sid := 0 }])]⟩).1.connections "t1" = none ∧
    sendSSEEvent (.statusUpdate "t1" "c1" { state := .completed } false)
        (sendSSEEvent (.artifactUpdate "t1" "c1"
          { artifactId := "a1", parts := [], metadata := some [] })
          ⟨[("t1", [{ sid := 0 }])]⟩).1
      = ((sendSSEEvent (.artifactUpdate "t1" "c1"
          { artifactId := "a1", parts := [], metadata := some [] })
          ⟨[("t1", [{ sid := 0 }])]⟩).1, []) :=
  sse_forwarding_amended ⟨[("t1", [{ sid := 0 }])]⟩ "t1" "c1"
    { state := .working } false
    { artifactId := "a1", parts := [], metadata := some [] }
    [{ sid := 0 }]
    (.statusUpdate "t1" "c1" { state := .completed } false)
    (by decide) (by decide) rfl

/-! ## Claim C10 — SSE subscription is not read-only -/

/-- Claim C10: opening the in-process SSE endpoint for a task is not
read-only — the handler's `start` callback fires `updateStatus` with a
synthetic `working` status carrying an `SSE connection established` agent
message, which (over the in-memory reference backend) overwrites the
persisted `status.state` to `working` and appends the heartbeat message to
the task's stored history and message sequence, whatever state the task
was in; the observer is also registered and the status-update event
emitted. -/
theorem sse_subscribe_mutates_task (s : SseState) (ctx : CtxState)
    (tid : String) (cparam : Option String)
    (fcid hbId handlerNow coreNow : String) (sk : Sink) (task : Task)
    (htask : mapGet ctx.store.tasks tid = some task) :
    (sseSubscribe tid cparam fcid sk hbId handlerNow coreNow s ctx).2.2
      = .ok () ∧
    (sseSubscribe tid cparam fcid sk hbId handlerNow coreNow s ctx).2.1.store.getTask
        tid
      = some { task with
          status := { state := .working, message := some (sseHeartbeat hbId),
                      timestamp := some coreNow },
          history := some (task.history.getD [] ++ [sseHeartbeat hbId]) } ∧
    (sseSubscribe tid cparam fcid sk hbId handlerNow coreNow s ctx).2.1.store.getMessages
        tid
      = ctx.store.getMessages tid ++ [sseHeartbeat hbId] ∧
    mapGet (sseSubscribe tid cparam fcid sk hbId handlerNow coreNow s ctx).1.connections
        tid
      = some ((mapGet s.connections tid).getD [] ++ [sk]) ∧
    (sseSubscribe tid cparam fcid sk hbId handlerNow coreNow s ctx).2.1.events
      = ctx.events
        ++ [A2AEvent.statusUpdate tid
              (if jsTruthyStr cparam then cparam.getD "" else fcid)
              { state := .working, timestamp := some handlerNow,
                message := some (sseHeartbeat hbId) } false] := by
  have hupd : ctx.store.updateTaskStatus tid
      { state := .working, message := some (sseHeartbeat hbId),
        timestamp := some coreNow }
      = .ok ((MemoryStore.saveMessage
          { ctx.store with
              tasks :=
                mapSet ctx.store.tasks tid
                  { task with
                      status := { state := .working,
                                  message := some (sseHeartbeat hbId),
                                  timestamp := some coreNow },
                      history := some (task.history.getD []
                        ++ [sseHeartbeat hbId]) } }
          tid (sseHeartbeat hbId))) := by
    unfold MemoryStore.updateTaskStatus
    rw [htask]
  constructor
  · show (ctxUpdateStatus ctx tid _ _ coreNow).2 = .ok ()
    unfold ctxUpdateStatus
    simp only []
    rw [hupd]
  refine ⟨?_, ?_, ?_, ?_⟩
  · show ((ctxUpdateStatus ctx tid _ _ coreNow).1).store.getTask tid = _
    unfold ctxUpdateStatus
    simp only []
    rw [hupd]
    show (MemoryStore.saveMessage _ tid _).getTask tid = _
    unfold MemoryStore.saveMessage MemoryStore.getTask
    show mapGet (mapSet ctx.store.tasks tid _) tid = _
    rw [mapGet_mapSet_self]
  · show ((ctxUpdateStatus ctx tid _ _ coreNow).1).store.getMessages tid = _
    unfold ctxUpdateStatus
    simp only []
    rw [hupd]
    rw [getMessages_saveMessage_self]
    rfl
  · show mapGet (mapSet s.connections tid _) tid = _
    rw [mapGet_mapSet_self]
  · show ((ctxUpdateStatus ctx tid _ _ coreNow).1).events = _
    unfold ctxUpdateStatus
    simp only []
    rw [hupd]

/-- Claim C10, witness: subscribing against a task currently in state
`completed` flips its persisted state to `working` and appends the
heartbeat. -/
theorem sse_subscribe_mutates_task_witness :
    (sseSubscribe "t1" none "cid-f" { sid := 0 } "hb" "tH" "tC" ⟨[]⟩
        { store := MemoryStore.saveTask {}
            { id := "t1", contextId := "c1",
              status := { state := .completed }, metadata := some [] } }).2.2
      = .ok () ∧
    (sseSubscribe "t1" none "cid-f" { sid := 0 } "hb" "tH" "tC" ⟨[]⟩
        { store := MemoryStore.saveTask {}
            { id := "t1", contextId := "c1",
              status := { state := .completed }, metadata := some [] } }).2.1.store.getTask
        "t1"
      = some { id := "t1", contextId := "c1",
               status := { state := .working,
                           message := some (sseHeartbeat "hb"),
                           timestamp := some "tC" },
               history := some [sseHeartbeat "hb"],
               metadata := some [] } ∧
    (sseSubscribe "t1" none "cid-f" { sid := 0 } "hb" "tH" "tC" ⟨[]⟩
        { store := MemoryStore.saveTask {}
            { id := "t1", contextId := "c1",
              status := { state := .completed }, metadata := some [] } }).2.1.store.getMessages
        "t1"
      = (MemoryStore.saveTask {}
          { id := "t1", contextId := "c1",
            status := { state := .completed },
            metadata := some [] }).getMessages "t1" ++ [sseHeartbeat "hb"] ∧
    mapGet (sseSubscribe "t1" none "cid-f" { sid := 0 } "hb" "tH" "tC" ⟨[]⟩
        { store := MemoryStore.saveTask {}
            { id := "t1", contextId := "c1",
              status := { state := .completed },
              metadata := some [] } }).1.connections "t1"
      = some ((mapGet (⟨[]⟩ : SseState).connections "t1").getD []
          ++ [{ sid := 0 }]) ∧
    (sseSubscribe "t1" none "cid-f" { sid := 0 } "hb" "tH" "tC" ⟨[]⟩
        { store := MemoryStore.saveTask {}
            { id := "t1", contextId := "c1",
              status := { state := .completed },
              metadata := some [] } }).2.1.events
      = ({} : CtxState).events
        ++ [A2AEvent.statusUpdate "t1"
              (if jsTruthyStr none then (none : Option String).getD ""
               else "cid-f")
              { state := .working, timestamp := some "tH",
                message := some (sseHeartbeat "hb") } false] := by
  have h := sse_subscribe_mutates_task ⟨[]⟩
    { store := MemoryStore.saveTask {}
        { id := "t1", contextId := "c1",
          status := { state := .completed }, metadata := some [] } }
    "t1" none "cid-f" "hb" "tH" "tC" { sid := 0 }
    { id := "t1", contextId := "c1",
      status := { state := .completed }, metadata := some [] }
    (by decide)
  exact ⟨h.1, h.2.1, h.2.2.1, h.2.2.2.1, h.2.2.2.2⟩

/-! ## Claim C7 — message ordering by per-task sequence -/

/-- A trace of `saveMessage` calls against the in-memory adapter. -/
def applySaves (st : MemoryStore) (calls : List (String × Message)) :
    MemoryStore :=
  calls.foldl (fun s c => s.saveMessage c.1 c.2) st

/-- A trace of `saveMessage` calls against the Drizzle adapter; the `Nat`
of each call is the wall-clock `createdAt` of that insert. -/
def applySavesD (db : DrizzleDb) (calls : List (String × Message × Nat)) :
    DrizzleDb :=
  calls.foldl (fun d c => d.saveMessage c.1 c.2.1 c.2.2) db

/-- The message as it reads back from the Drizzle backend (its field
normalization: the empty-string `contextId` is dropped, the `taskId` is
not stored on the message, and absent metadata reads back as the empty
record). -/
def roundTripMsg (m : Message) : Message :=
  { messageId := m.messageId
    role := m.role
    parts := m.parts
    contextId := jsStrOrNone m.contextId
    taskId := none
    extensions := m.extensions
    metadata := some (m.metadata.getD []) }

theorem jsStrOrNone_idem (o : Option String) :
    jsStrOrNone (jsStrOrNone o) = jsStrOrNone o := by
  cases o with
  | none => rfl
  | some s =>
      by_cases h : (s == "") = true
      · simp [jsStrOrNone, h]
      · simp [jsStrOrNone, h]

theorem dbToMessage_messageRow (i : Nat) (t : String) (m : Message)
    (n : Nat) : dbToMessage (messageRow i t m n) = roundTripMsg m := by
  simp [dbToMessage, messageRow, roundTripMsg, jsStrOrNone_idem]

/-- Well-formedness of the Drizzle database reachable through the adapter:
row ids are below the fresh counter, every join-table row references an
existing message row, and each task's join rows are in ascending sequence
order. -/
def DrizzleWF (db : DrizzleDb) : Prop :=
  (∀ r ∈ db.messages, r.id < db.nextId) ∧
  (∀ tm ∈ db.taskMessages, tm.messageId < db.nextId ∧
     (db.messages.find? (fun r => r.id == tm.messageId)).isSome) ∧
  (∀ t, List.Sorted (fun a b : DbTaskMessageRow => a.sequence ≤ b.sequence)
     (tmsFor db t))

theorem drizzleWF_empty : DrizzleWF {} := by
  refine ⟨?_, ?_, ?_⟩
  · intro r hr
    cases hr
  · intro tm htm
    cases htm
  · intro _
    exact List.sorted_nil

theorem drizzle_step (db : DrizzleDb) (t : String) (m : Message) (now : Nat)
    (h : DrizzleWF db) :
    DrizzleWF (db.saveMessage t m now) ∧
    ∀ t', (db.saveMessage t m now).getMessages t'
        = db.getMessages t' ++ (if t' = t then [roundTripMsg m] else []) := by
  obtain ⟨hids, htms, hsort⟩ := h
  have hmsg := saveMessage_messages_append db t m now hids
  have htm := saveMessage_taskMessages_append db t m now
    (fun tm htm0 => (htms tm htm0).1)
  have hnext : (db.saveMessage t m now).nextId = db.nextId + 1 := rfl
  have hrowid : (messageRow db.nextId t m now).id = db.nextId := rfl
  have hfindNew : ∀ msgs : List DbMessageRow, (∀ r ∈ msgs, r.id < db.nextId) →
      (msgs ++ [messageRow db.nextId t m now]).find?
        (fun r => r.id == db.nextId) = some (messageRow db.nextId t m now) := by
    intro msgs hm
    rw [List.find?_append]
    have h0 : msgs.find? (fun r => r.id == db.nextId) = none := by
      apply List.find?_eq_none.mpr
      intro r hr
      simpa using Nat.ne_of_lt (hm r hr)
    rw [h0]
    simp [List.find?, messageRow]
  have hseqle : ∀ tm ∈ tmsFor db t, tm.sequence ≤ maxSeqOf db t := by
    intro tm htm0
    exact le_foldl_max _ 0 _ (List.mem_map_of_mem (fun x => x.sequence) htm0)
  have htmsFor : ∀ t', tmsFor (db.saveMessage t m now) t'
      = tmsFor db t'
        ++ (if t' = t
            then [(⟨t, db.nextId, maxSeqOf db t + 1⟩ : DbTaskMessageRow)]
            else []) := by
    intro t'
    unfold tmsFor
    rw [htm, List.filter_append]
    by_cases h' : t' = t
    · subst h'
      simp [tmsFor]
    · have hb : (t == t') = false := beq_eq_false_iff_ne.mpr (Ne.symm h')
      simp [tmsFor, hb, h']
  constructor
  · refine ⟨?_, ?_, ?_⟩
    · rw [hmsg, hnext]
      intro r hr
      rcases List.mem_append.mp hr with h0 | h0
      · exact Nat.lt_succ_of_lt (hids r h0)
      · simp only [List.mem_singleton] at h0
        subst h0
        exact Nat.lt_succ_self _
    · rw [htm, hnext, hmsg]
      intro tm htm0
      rcases List.mem_append.mp htm0 with h0 | h0
      · refine ⟨Nat.lt_succ_of_lt (htms tm h0).1, ?_⟩
        rw [List.find?_append]
        have := (htms tm h0).2
        cases hfo : db.messages.find? (fun r => r.id == tm.messageId) with
        | none => rw [hfo] at this; cases this
        | some r0 => simp [hfo]
      · simp only [List.mem_singleton] at h0
        subst h0
        refine ⟨Nat.lt_succ_self _, ?_⟩
        rw [hfindNew db.messages hids]
        rfl
    · intro t'
      rw [htmsFor t']
      by_cases h' : t' = t
      · subst h'
        simp only [if_true]
        apply List.pairwise_append.mpr
        refine ⟨hsort t', List.pairwise_singleton _ _, ?_⟩
        intro x hx y hy
        simp only [List.mem_singleton] at hy
        subst hy
        exact Nat.le_succ_of_le (hseqle x hx)
      · simp only [h', if_false, List.append_nil]
        exact hsort t'
  · intro t'
    unfold DrizzleDb.getMessages
    rw [hmsg, htmsFor t']
    by_cases h' : t' = t
    · subst h'
      simp only [if_true]
      have hsorted : List.Sorted
          (fun a b : DbTaskMessageRow => a.sequence ≤ b.sequence)
          (tmsFor db t'
            ++ [(⟨t', db.nextId, maxSeqOf db t' + 1⟩ : DbTaskMessageRow)]) := by
        apply List.pairwise_append.mpr
        refine ⟨hsort t', List.pairwise_singleton _ _, ?_⟩
        intro x hx y hy
        simp only [List.mem_singleton] at hy
        subst hy
        exact Nat.le_succ_of_le (hseqle x hx)
      rw [List.Sorted.insertionSort_eq hsorted,
        List.Sorted.insertionSort_eq (hsort t'), List.filterMap_append]
      congr 1
      · exact filterMap_lookup_append db.messages _ _
          (fun tm htm0 => (htms tm (List.mem_of_mem_filter htm0)).2)
      · simp only [List.filterMap]
        rw [hfindNew db.messages hids]
        simp [dbToMessage_messageRow]
    · simp only [h', if_false, List.append_nil]
      rw [List.Sorted.insertionSort_eq (hsort t')]
      exact filterMap_lookup_append db.messages _ _
        (fun tm htm0 => (htms tm (List.mem_of_mem_filter htm0)).2)

theorem applySaves_getMessages (calls : List (String × Message)) :
    ∀ (st : MemoryStore) (t : String),
      (applySaves st calls).getMessages t
        = st.getMessages t
          ++ (calls.filter (fun c => c.1 == t)).map (fun c => c.2) := by
  induction calls with
  | nil => intro st t; simp [applySaves]
  | cons c rest ih =>
      intro st t
      show (applySaves (st.saveMessage c.1 c.2) rest).getMessages t = _
      rw [ih]
      by_cases h : c.1 = t
      · subst h
        rw [getMessages_saveMessage_self]
        simp [List.filter_cons, List.append_assoc]
      · rw [getMessages_saveMessage_ne _ _ _ _ h]
        have hb : (c.1 == t) = false := beq_eq_false_iff_ne.mpr h
        simp [List.filter_cons, hb]

theorem applySavesD_getMessages (calls : List (String × Message × Nat)) :
    ∀ (db : DrizzleDb), DrizzleWF db → ∀ (t : String),
      (applySavesD db calls).getMessages t
        = db.getMessages t
          ++ (calls.filter (fun c => c.1 == t)).map
              (fun c => roundTripMsg c.2.1) := by
  induction calls with
  | nil => intro db _ t; simp [applySavesD]
  | cons c rest ih =>
      intro db hwf t
      have hstep := drizzle_step db c.1 c.2.1 c.2.2 hwf
      show (applySavesD (db.saveMessage c.1 c.2.1 c.2.2) rest).getMessages t = _
      rw [ih _ hstep.1 t, hstep.2 t]
      by_cases h : t = c.1
      · have hb : (c.1 == t) = true := beq_iff_eq.mpr h.symm
        simp [List.filter_cons, hb, h, List.append_assoc]
      · have hb : (c.1 == t) = false := beq_eq_false_iff_ne.mpr
          (fun hc => h hc.symm)
        simp [List.filter_cons, hb, h]

/-- Claim C7: `getMessages` returns exactly the saved messages in call
order, for any interleaving of tasks and independently of the messages'
wall-clock timestamps. In-memory: the per-task list is exactly the
sequence of `saveMessage` calls for that task. Drizzle: a trace of
`saveMessage` calls from the empty database (with arbitrary `createdAt`
timestamps) reads back, per task, exactly the normalized saved messages in
call order — ordered by the join-table `sequence`, not by timestamp — and
each call appends exactly one join row whose sequence is the task's
current maximum plus one. -/
theorem message_ordering_by_sequence (st : MemoryStore)
    (callsM : List (String × Message)) (t : String)
    (calls : List (String × Message × Nat)) (db : DrizzleDb) (m : Message)
    (now : Nat)
    (hnorm : ∀ c ∈ calls, roundTripMsg c.2.1 = c.2.1)
    (hwf : DrizzleWF db) :
    (applySaves st callsM).getMessages t
      = st.getMessages t
        ++ (callsM.filter (fun c => c.1 == t)).map (fun c => c.2) ∧
    (applySavesD {} calls).getMessages t
      = (calls.filter (fun c => c.1 == t)).map (fun c => c.2.1) ∧
    (db.saveMessage t m now).taskMessages
      = db.taskMessages
        ++ [(⟨t, db.nextId, maxSeqOf db t + 1⟩ : DbTaskMessageRow)] := by
  refine ⟨applySaves_getMessages callsM st t, ?_,
    saveMessage_taskMessages_append db t m now
      (fun tm htm => (hwf.2.1 tm htm).1)⟩
  rw [applySavesD_getMessages calls {} drizzleWF_empty t]
  have hmap : (calls.filter (fun c => c.1 == t)).map
      (fun c => roundTripMsg c.2.1)
      = (calls.filter (fun c => c.1 == t)).map (fun c => c.2.1) := by
    apply List.map_congr_left
    intro c hc
    exact hnorm c (List.mem_of_mem_filter hc)
  rw [hmap]
  show ({} : DrizzleDb).getMessages t ++ _ = _
  simp [DrizzleDb.getMessages, tmsFor]

/-- Claim C7, witness: three saves across two tasks with decreasing
timestamps still read back in call order. -/
theorem message_ordering_by_sequence_witness :
    (applySaves {} [("t1", { messageId := "m1", role := "user",
                             parts := [.text "a"], metadata := some [] }),
                    ("t2", { messageId := "m2", role := "user",
                             parts := [.text "b"], metadata := some [] }),
                    ("t1", { messageId := "m3", role := "agent",
                             parts := [.text "c"], metadata := some [] })]).getMessages "t1"
      = ({} : MemoryStore).getMessages "t1"
        ++ ([("t1", ({ messageId := "m1", role := "user",
                       parts := [.text "a"],
                       metadata := some [] } : Message)),
             ("t2", { messageId := "m2", role := "user",
                      parts := [.text "b"], metadata := some [] }),
             ("t1", { messageId := "m3", role := "agent",
                      parts := [.text "c"],
                      metadata := some [] })].filter
            (fun c => c.1 == "t1")).map (fun c => c.2) ∧
    (applySavesD {}
        [("t1", { messageId := "m1", role := "user", parts := [.text "a"],
                  metadata := some [] }, 99),
         ("t2", { messageId := "m2", role := "user", parts := [.text "b"],
                  metadata := some [] }, 0),
         ("t1", { messageId := "m3", role := "agent", parts := [.text "c"],
                  metadata := some [] }, 5)]).getMessages "t1"
      = ([("t1", ({ messageId := "m1", role := "user",
                    parts := [.text "a"],
                    metadata := some [] } : Message), (99 : Nat)),
          ("t2", { messageId := "m2", role := "user", parts := [.text "b"],
                   metadata := some [] }, 0),
          ("t1", { messageId := "m3", role := "agent", parts := [.text "c"],
                   metadata := some [] }, 5)].filter
          (fun c => c.1 == "t1")).map (fun c => c.2.1) ∧
    (DrizzleDb.saveMessage {} "t1"
        { messageId := "m9", role := "user", parts := [],
          metadata := some [] } 3).taskMessages
      = ({} : DrizzleDb).taskMessages
        ++ [(⟨"t1", ({} : DrizzleDb).nextId,
             maxSeqOf {} "t1" + 1⟩ : DbTaskMessageRow)] :=
  message_ordering_by_sequence {}
    [("t1", { messageId := "m1", role := "user", parts := [.text "a"],
              metadata := some [] }),
     ("t2", { messageId := "m2", role := "user", parts := [.text "b"],
              metadata := some [] }),
     ("t1", { messageId := "m3", role := "agent", parts := [.text "c"],
              metadata := some [] })]
    "t1"
    [("t1", { messageId := "m1", role := "user", parts := [.text "a"],
              metadata := some [] }, 99),
     ("t2", { messageId := "m2", role := "user", parts := [.text "b"],
              metadata := some [] }, 0),
     ("t1", { messageId := "m3", role := "agent", parts := [.text "c"],
              metadata := some [] }, 5)]
    {} { messageId := "m9", role := "user", parts := [], metadata := some [] }
    3 (by decide) drizzleWF_empty

end A2A
